import Mathlib

/-!
Verification of the nested-field resolution algorithm of the parcels
tutorial `tutorial_NestedFields.ipynb`.  The resolver itself lives in the
host library, outside the supplied sources; following the specification,
the resolution loop is modelled here from the spec's algorithm (section
4.1) and the tutorial's narration, and the tutorial's concrete fields
(U1/U2 velocity grids, F1/F2 tracking fields) are embedded from the
notebook cells.
-/

set_option autoImplicit false

/-- A query point: four scalar coordinates (time, depth, lat, lon).
Coordinates are modelled as integers, which cover every query the
tutorial performs. -/
structure QueryPoint where
  time : Int
  depth : Int
  lat : Int
  lon : Int
  deriving DecidableEq

/-- Result of sampling one field source at a point: a value, an
out-of-bounds classification, or any other sampling error. -/
inductive SampleResult (α ε : Type) where
  | value : α → SampleResult α ε
  | outOfBounds : SampleResult α ε
  | otherError : ε → SampleResult α ε
  deriving DecidableEq

/-- A field source is an opaque collaborator with a single capability:
sample a query point. -/
abbrev FieldSource (α ε : Type) := QueryPoint → SampleResult α ε

/-- Outcome of resolving a query against a nested field set: the value
(tagged with the 1-based position of the source that answered), the
aggregate `outOfBoundsAll` failure, or a propagated non-bounds error.
A single-source out-of-bounds is by construction not representable here:
it is never surfaced to the caller. -/
inductive Outcome (α ε : Type) where
  | value : Nat → α → Outcome α ε
  | outOfBoundsAll : Outcome α ε
  | otherError : ε → Outcome α ε
  deriving DecidableEq

variable {α ε : Type}

/-- Modelled from the spec: the resolution loop of NestedResolver
(spec section 4.1, steps 2-6; the resolver's implementation is absent
from the supplied sources).  `idx` is the 1-based position of the source
currently tried.  A value is returned immediately; a non-bounds error is
propagated immediately; an out-of-bounds answer moves on to the next
source; an exhausted sequence yields the aggregate failure. -/
def resolveFrom (fields : List (FieldSource α ε)) (p : QueryPoint) (idx : Nat) :
    Outcome α ε :=
  match fields with
  | [] => .outOfBoundsAll
  | f :: rest =>
    match f p with
    | .value v => .value idx v
    | .otherError e => .otherError e
    | .outOfBounds => resolveFrom rest p (idx + 1)

/-- Modelled from the spec: `resolve(fields, point)` starts at the first
source; the tutorial reports source positions 1-based ("Field #1"). -/
def resolve (fields : List (FieldSource α ε)) (p : QueryPoint) : Outcome α ε :=
  resolveFrom fields p 1

/-- The source position an outcome reports, when it carries one. -/
def reportedIndex : Outcome α ε → Option Nat
  | .value i _ => some i
  | .outOfBoundsAll => none
  | .otherError _ => none

/-- Instrumented resolution loop: same outcome as `resolveFrom`, paired
with the number of `sample` calls performed. -/
def resolveFromCounted (fields : List (FieldSource α ε)) (p : QueryPoint)
    (idx : Nat) : Outcome α ε × Nat :=
  match fields with
  | [] => (.outOfBoundsAll, 0)
  | f :: rest =>
    match f p with
    | .value v => (.value idx v, 1)
    | .otherError e => (.otherError e, 1)
    | .outOfBounds =>
      let r := resolveFromCounted rest p (idx + 1)
      (r.1, r.2 + 1)

/-- `resolve` with a count of the `sample` calls performed. -/
def resolveCounted (fields : List (FieldSource α ε)) (p : QueryPoint) :
    Outcome α ε × Nat :=
  resolveFromCounted fields p 1

/-- Modelled from the spec: one resolve invocation as a state
transformer over the nested field set (spec section 4.1 "State machine:
stateless per call").  The spec's resolver reads the field set and
returns it unchanged. -/
def resolveStep (st : List (FieldSource α ε)) (p : QueryPoint) :
    Outcome α ε × List (FieldSource α ε) :=
  (resolve st p, st)

/-- Successive resolve invocations, threading the field set as explicit
state between calls. -/
def resolveTrace (st : List (FieldSource α ε)) :
    List QueryPoint → List (Outcome α ε) × List (FieldSource α ε)
  | [] => ([], st)
  | p :: ps =>
    let r := resolveStep st p
    let rest := resolveTrace r.2 ps
    (r.1 :: rest.1, rest.2)

/-- A flat rectangular field as built in the tutorial: a lon/lat bounding
box (the grid's extent) and the gridded data, sampled as a function of
the query point.  Sampling succeeds exactly when the point lies inside
the grid's extent, and otherwise reports out-of-bounds. -/
structure RectField where
  lonMin : Int
  lonMax : Int
  latMin : Int
  latMax : Int
  data : QueryPoint → Int

/-- A query point lies inside a rectangular field's grid extent. -/
def RectField.inBounds (f : RectField) (p : QueryPoint) : Prop :=
  f.lonMin ≤ p.lon ∧ p.lon ≤ f.lonMax ∧ f.latMin ≤ p.lat ∧ p.lat ≤ f.latMax

instance (f : RectField) (p : QueryPoint) : Decidable (f.inBounds p) := by
  unfold RectField.inBounds
  infer_instance

/-- Sample a rectangular field at a query point. -/
def RectField.sample (f : RectField) (p : QueryPoint) : SampleResult Int Unit :=
  if f.inBounds p then
    .value (f.data p)
  else
    .outOfBounds

/-- Two rectangular fields share a grid when their extents agree (the
tutorial's tracking fields are built with `grid=U1.grid` / `grid=U2.grid`). -/
def sameGrid (f g : RectField) : Prop :=
  f.lonMin = g.lonMin ∧ f.lonMax = g.lonMax ∧ f.latMin = g.latMin ∧ f.latMax = g.latMax

/-- Tutorial cell 2: the high-resolution zonal velocity `U1`, uniform
1 m/s on the 2km x 2km grid lon ∈ [0, 2000], lat ∈ [0, 2000]. -/
def U1 : RectField := ⟨0, 2000, 0, 2000, fun _ => 1⟩

/-- Tutorial cell 3: the low-resolution zonal velocity `U2`, uniform
1 m/s on the 20km x 4km grid lon ∈ [-2000, 18000], lat ∈ [-1000, 3000]. -/
def U2 : RectField := ⟨-2000, 18000, -1000, 3000, fun _ => 1⟩

/-- Tutorial cell 4: the nested zonal velocity `U = NestedField('U', [U1, U2])`. -/
def U : List (FieldSource Int Unit) := [U1.sample, U2.sample]

/-- Tutorial cell 6: the tracking field `F1`, all ones on `U1`'s grid. -/
def F1 : RectField := ⟨0, 2000, 0, 2000, fun _ => 1⟩

/-- Tutorial cell 6: the tracking field `F2`, all twos on `U2`'s grid. -/
def F2 : RectField := ⟨-2000, 18000, -1000, 3000, fun _ => 2⟩

/-- Tutorial cell 6: the nested tracking field `F = NestedField('F', [F1, F2])`. -/
def F : List (FieldSource Int Unit) := [F1.sample, F2.sample]

/-- Tutorial cell 7's first query point: lon = 1000, lat = 500 (time 0,
depth 0). -/
def tutorialPointFine : QueryPoint := ⟨0, 0, 500, 1000⟩

/-- Tutorial cell 7's second query point: lon = 10000, lat = 500 (time 0,
depth 0). -/
def tutorialPointCoarse : QueryPoint := ⟨0, 0, 500, 10000⟩

theorem resolveFrom_append_oob (pre rest : List (FieldSource α ε)) (p : QueryPoint)
    (i : Nat) (h : ∀ f ∈ pre, f p = .outOfBounds) :
    resolveFrom (pre ++ rest) p i = resolveFrom rest p (i + pre.length) := by
  induction pre generalizing i with
  | nil => simp
  | cons g gs ih =>
    have hg : g p = .outOfBounds := h g (by simp)
    have ih2 := ih (i + 1) (fun f hf => h f (by simp [hf]))
    simp only [List.cons_append, resolveFrom, hg, List.length_cons, List.append_eq]
    rw [ih2]
    congr 1
    omega

theorem resolveFromCounted_append_oob (pre rest : List (FieldSource α ε))
    (p : QueryPoint) (i : Nat) (h : ∀ f ∈ pre, f p = .outOfBounds) :
    resolveFromCounted (pre ++ rest) p i =
      ((resolveFromCounted rest p (i + pre.length)).1,
       (resolveFromCounted rest p (i + pre.length)).2 + pre.length) := by
  induction pre generalizing i with
  | nil => simp
  | cons g gs ih =>
    have hg : g p = .outOfBounds := h g (by simp)
    have ih2 := ih (i + 1) (fun f hf => h f (by simp [hf]))
    have harith : i + 1 + gs.length = i + (gs.length + 1) := by omega
    simp only [List.cons_append, resolveFromCounted, hg, List.length_cons, List.append_eq]
    rw [ih2, harith]
    refine Prod.ext rfl ?_
    simp only
    omega

theorem resolveFromCounted_fst (fields : List (FieldSource α ε)) (p : QueryPoint)
    (i : Nat) : (resolveFromCounted fields p i).1 = resolveFrom fields p i := by
  induction fields generalizing i with
  | nil => rfl
  | cons f rest ih =>
    simp only [resolveFromCounted, resolveFrom]
    cases f p <;> simp [ih]

theorem resolveFromCounted_le (fields : List (FieldSource α ε)) (p : QueryPoint)
    (i : Nat) : (resolveFromCounted fields p i).2 ≤ fields.length := by
  induction fields generalizing i with
  | nil => simp [resolveFromCounted]
  | cons f rest ih =>
    simp only [resolveFromCounted, List.length_cons]
    cases f p <;> simp [Nat.succ_le_succ, ih]

/-- A field source that fails everywhere with a sampling error that is
not an out-of-bounds classification (e.g. a malformed-time error). -/
def badTimeSource : FieldSource Int Unit := fun _ => .otherError ()

theorem sameGrid_inBounds_iff {f g : RectField} (h : sameGrid f g) (p : QueryPoint) :
    f.inBounds p ↔ g.inBounds p := by
  obtain ⟨h1, h2, h3, h4⟩ := h
  simp [RectField.inBounds, h1, h2, h3, h4]

theorem resolveFrom_grid_determines_index (fs1 fs2 : List RectField) (p : QueryPoint)
    (h : List.Forall₂ sameGrid fs1 fs2) (i : Nat) :
    reportedIndex (resolveFrom (fs1.map RectField.sample) p i) =
      reportedIndex (resolveFrom (fs2.map RectField.sample) p i) := by
  induction h generalizing i with
  | nil => rfl
  | @cons f g l1 l2 hfg htl ih =>
    simp only [List.map_cons, resolveFrom, RectField.sample]
    by_cases hin : f.inBounds p
    · rw [if_pos hin, if_pos ((sameGrid_inBounds_iff hfg p).mp hin)]
      rfl
    · rw [if_neg hin, if_neg (fun hgin => hin ((sameGrid_inBounds_iff hfg p).mpr hgin))]
      exact ih (i + 1)

/-- C1: for a NestedFieldSet [A, B], when source A's sample at the query
point succeeds with any value (including zero or negative), resolve
returns A's value tagged with position 1 immediately, and performs
exactly one sample call, so B is never consulted. -/
theorem resolve_priority_first_success (A B : FieldSource α ε) (p : QueryPoint)
    (v : α) (h : A p = .value v) :
    resolve [A, B] p = .value 1 v ∧ (resolveCounted [A, B] p).2 = 1 := by
  refine ⟨?_, ?_⟩ <;>
    simp [resolve, resolveCounted, resolveFrom, resolveFromCounted, h]

theorem resolve_priority_first_success_witness :
    F1.sample tutorialPointFine = .value 1 ∧
      (resolve [F1.sample, F2.sample] tutorialPointFine = .value 1 1 ∧
        (resolveCounted [F1.sample, F2.sample] tutorialPointFine).2 = 1) :=
  ⟨by decide,
   resolve_priority_first_success F1.sample F2.sample tutorialPointFine 1 (by decide)⟩

/-- C2: for a NestedFieldSet [A, B], when A's sample reports
out-of-bounds at the query point and B's sample succeeds, resolve falls
back to B and returns B's value tagged with position 2, having sampled
both sources. -/
theorem resolve_fallback_on_oob (A B : FieldSource α ε) (p : QueryPoint) (v : α)
    (hA : A p = .outOfBounds) (hB : B p = .value v) :
    resolve [A, B] p = .value 2 v ∧ (resolveCounted [A, B] p).2 = 2 := by
  refine ⟨?_, ?_⟩ <;>
    simp [resolve, resolveCounted, resolveFrom, resolveFromCounted, hA, hB]

theorem resolve_fallback_on_oob_witness :
    U1.sample tutorialPointCoarse = .outOfBounds ∧
      U2.sample tutorialPointCoarse = .value 1 ∧
      (resolve [U1.sample, U2.sample] tutorialPointCoarse = .value 2 1 ∧
        (resolveCounted [U1.sample, U2.sample] tutorialPointCoarse).2 = 2) :=
  ⟨by decide, by decide,
   resolve_fallback_on_oob U1.sample U2.sample tutorialPointCoarse 1
     (by decide) (by decide)⟩

/-- C3: for a non-empty NestedFieldSet in which every source's sample
reports out-of-bounds at the query point, resolve returns the aggregate
`Outcome.outOfBoundsAll` failure.  A single-source out-of-bounds is a
`SampleResult`, a type the caller never receives: by construction of
`Outcome` it cannot be surfaced, and `outOfBoundsAll` is a distinguished
constructor distinct from values and from propagated errors. -/
theorem resolve_exhaustion_aggregate (fields : List (FieldSource α ε))
    (p : QueryPoint) (_hne : fields.length ≠ 0)
    (h : ∀ f ∈ fields, f p = .outOfBounds) :
    resolve fields p = .outOfBoundsAll := by
  have h1 := resolveFrom_append_oob fields [] p 1 h
  simpa [resolve, resolveFrom] using h1

theorem resolve_exhaustion_aggregate_witness :
    [F1.sample, F2.sample].length ≠ 0 ∧
      F1.sample ⟨0, 0, 500, 50000⟩ = .outOfBounds ∧
      F2.sample ⟨0, 0, 500, 50000⟩ = .outOfBounds ∧
      resolve [F1.sample, F2.sample] ⟨0, 0, 500, 50000⟩ = .outOfBoundsAll :=
  ⟨by decide, by decide, by decide,
   resolve_exhaustion_aggregate [F1.sample, F2.sample] ⟨0, 0, 500, 50000⟩
     (by decide) (by decide)⟩

/-- C4: when every source before position k reports out-of-bounds and
the source at position k fails with a non-bounds error, resolve
propagates that error unchanged, whatever sources follow (the trailing
list `rest` is arbitrary), and performs no sample call beyond position
k: exactly `pre.length + 1` calls are made. -/
theorem resolve_propagates_other_error (pre rest : List (FieldSource α ε))
    (A : FieldSource α ε) (p : QueryPoint) (e : ε)
    (hpre : ∀ f ∈ pre, f p = .outOfBounds) (hA : A p = .otherError e) :
    resolve (pre ++ A :: rest) p = .otherError e ∧
      (resolveCounted (pre ++ A :: rest) p).2 = pre.length + 1 := by
  constructor
  · have h1 := resolveFrom_append_oob pre (A :: rest) p 1 hpre
    rw [resolve, h1]
    simp [resolveFrom, hA]
  · have h2 := resolveFromCounted_append_oob pre (A :: rest) p 1 hpre
    rw [resolveCounted, h2]
    simp only [resolveFromCounted, hA]
    omega

theorem resolve_propagates_other_error_witness :
    F1.sample tutorialPointCoarse = .outOfBounds ∧
      badTimeSource tutorialPointCoarse = .otherError () ∧
      F2.sample tutorialPointCoarse = .value 2 ∧
      (resolve ([F1.sample] ++ badTimeSource :: [F2.sample]) tutorialPointCoarse =
          .otherError () ∧
        (resolveCounted ([F1.sample] ++ badTimeSource :: [F2.sample])
            tutorialPointCoarse).2 = [F1.sample].length + 1) :=
  ⟨by decide, by decide, by decide,
   resolve_propagates_other_error [F1.sample] [F2.sample] badTimeSource
     tutorialPointCoarse () (by decide) (by decide)⟩

/-- C5: resolution is order-sensitive.  When sources A and B both
succeed at the query point, resolve over A :: B :: rest returns A's
value while resolve over the swapped B :: A :: rest returns B's value,
for an arbitrary tail of further chained sources. -/
theorem resolve_order_sensitive (A B : FieldSource α ε)
    (rest : List (FieldSource α ε)) (p : QueryPoint) (a b : α)
    (hA : A p = .value a) (hB : B p = .value b) :
    resolve (A :: B :: rest) p = .value 1 a ∧
      resolve (B :: A :: rest) p = .value 1 b := by
  constructor <;> simp [resolve, resolveFrom, hA, hB]

theorem resolve_order_sensitive_witness :
    F1.sample tutorialPointFine = .value 1 ∧
      F2.sample tutorialPointFine = .value 2 ∧
      (resolve (F1.sample :: F2.sample :: []) tutorialPointFine = .value 1 1 ∧
        resolve (F2.sample :: F1.sample :: []) tutorialPointFine = .value 1 2) :=
  ⟨by decide, by decide,
   resolve_order_sensitive F1.sample F2.sample [] tutorialPointFine 1 2
     (by decide) (by decide)⟩

/-- C6: resolution is deterministic.  For a fixed nested field set and a
fixed query point, any two invocations of resolve yield the same outcome
and report the same source position: resolve is a function of its
arguments alone. -/
theorem resolve_deterministic (fields : List (FieldSource α ε)) (p : QueryPoint) :
    resolve fields p = resolve fields p ∧
      reportedIndex (resolve fields p) = reportedIndex (resolve fields p) :=
  ⟨rfl, rfl⟩

/-- C7: resolve is stateless.  Threading the nested field set as
explicit state through any sequence of successive resolve invocations
leaves the field set exactly as constructed, and every invocation's
outcome equals the pure function `resolve` of the original field set and
that query point alone. -/
theorem resolve_stateless_frame (fields : List (FieldSource α ε))
    (ps : List QueryPoint) :
    (resolveTrace fields ps).2 = fields ∧
      (resolveTrace fields ps).1 = ps.map (resolve fields) := by
  induction ps with
  | nil => exact ⟨rfl, rfl⟩
  | cons p ps ih =>
    refine ⟨?_, ?_⟩ <;> simp [resolveTrace, resolveStep, ih.1, ih.2]

/-- C8: the reported source position is 1-based: when the sources before
position `pre.length + 1` all report out-of-bounds and the source at
that position succeeds, the outcome carries exactly that 1-based
position; in particular the tutorial's tracking NestedField F yields
value 1 at position 1 in the fine region and value 2 at position 2 in
the fallback region. -/
theorem resolve_index_one_based (pre rest : List (FieldSource α ε))
    (f : FieldSource α ε) (p : QueryPoint) (v : α)
    (hpre : ∀ g ∈ pre, g p = .outOfBounds) (hf : f p = .value v) :
    resolve (pre ++ f :: rest) p = .value (pre.length + 1) v ∧
      resolve F tutorialPointFine = .value 1 1 ∧
      resolve F tutorialPointCoarse = .value 2 2 := by
  refine ⟨?_, by decide, by decide⟩
  have h1 := resolveFrom_append_oob pre (f :: rest) p 1 hpre
  rw [resolve, h1]
  simp [resolveFrom, hf, Nat.add_comm]

theorem resolve_index_one_based_witness :
    F1.sample tutorialPointCoarse = .outOfBounds ∧
      F2.sample tutorialPointCoarse = .value 2 ∧
      (resolve ([F1.sample] ++ F2.sample :: []) tutorialPointCoarse =
          .value ([F1.sample].length + 1) 2 ∧
        resolve F tutorialPointFine = .value 1 1 ∧
        resolve F tutorialPointCoarse = .value 2 2) :=
  ⟨by decide, by decide,
   resolve_index_one_based [F1.sample] [] F2.sample tutorialPointCoarse 2
     (by decide) (by decide)⟩

/-- C9: the satisfying source position depends only on the sources'
grids and the query point, not on the gridded values: two nested field
sets whose corresponding sources share grids report the same position
at every query point.  This is what makes the tutorial's tracking-field
technique valid: F = [F1, F2] is co-gridded with U = [U1, U2], so F's
reported position identifies the source that answered for U. -/
theorem resolve_index_grid_only (fs1 fs2 : List RectField) (p : QueryPoint)
    (h : List.Forall₂ sameGrid fs1 fs2) :
    reportedIndex (resolve (fs1.map RectField.sample) p) =
      reportedIndex (resolve (fs2.map RectField.sample) p) :=
  resolveFrom_grid_determines_index fs1 fs2 p h 1

theorem resolve_index_grid_only_witness :
    List.Forall₂ sameGrid [U1, U2] [F1, F2] ∧
      reportedIndex (resolve ([U1, U2].map RectField.sample) tutorialPointCoarse) =
        reportedIndex (resolve ([F1, F2].map RectField.sample) tutorialPointCoarse) :=
  ⟨.cons ⟨rfl, rfl, rfl, rfl⟩ (.cons ⟨rfl, rfl, rfl, rfl⟩ .nil),
   resolve_index_grid_only [U1, U2] [F1, F2] tutorialPointCoarse
     (.cons ⟨rfl, rfl, rfl, rfl⟩ (.cons ⟨rfl, rfl, rfl, rfl⟩ .nil))⟩

/-- C10: resolve always terminates after at most one sample call per
source: the instrumented resolver performs at most `fields.length`
sample calls and computes exactly the outcome of `resolve`. -/
theorem resolve_terminates_within_length (fields : List (FieldSource α ε))
    (p : QueryPoint) :
    (resolveCounted fields p).2 ≤ fields.length ∧
      (resolveCounted fields p).1 = resolve fields p :=
  ⟨resolveFromCounted_le fields p 1, resolveFromCounted_fst fields p 1⟩
